import Mathlib

/-!
# Verification of the retrieval core of the semantic-chat repository

A shallow embedding of `src/semantic_chat.py` (class `SemanticChatEngine`)
and the retrieval-relevant routes of `src/app_enhanced.py`.  Text is
modelled as `List Char`, SQLite tables as Lean lists kept in insertion
(= autoincrement id) order, float vectors as `List ℚ`, and the external
model collaborators (sentence embedding, L2 normalization, answer
synthesis) as function parameters that may fail with `Except.error`,
mirroring `EmbeddingError`/`SynthesisError`.  Python exceptions are
threaded as `Except`/`Option` error values.
-/

/-! ## Chunker: `SemanticChatEngine.chunk_text` (semantic_chat.py lines 62-83) -/

/-- The ASCII whitespace stripped by Python `str.strip()` (space, tab,
newline, carriage return, vertical tab, form feed).  Unicode spaces are
stripped by Python as well; the claims only involve this set. -/
def pyWS (c : Char) : Bool :=
  c = ' ' || c = '\t' || c = '\n' || c = Char.ofNat 13 || c = Char.ofNat 11 || c = Char.ofNat 12

/-- Python `str.strip()`: drop leading and trailing whitespace. -/
def pyStrip (l : List Char) : List Char :=
  ((l.dropWhile pyWS).reverse.dropWhile pyWS).reverse

/-- The sentence-terminal characters of the splitting regex `[.!?]+`. -/
def isTerm (c : Char) : Bool := c = '.' || c = '!' || c = '?'

/-- `re.split(r'[.!?]+', text)`: split on maximal runs of sentence-terminal
punctuation.  Only the last character of a run opens a new piece, so runs
collapse exactly as the regex `+` does; empty pieces at the ends appear as
in `re.split`. -/
def splitTerm : List Char → List (List Char)
  | [] => [[]]
  | c :: rest =>
    if isTerm c then
      match rest with
      | [] => [[], []]
      | d :: _ => if isTerm d then splitTerm rest else [] :: splitTerm rest
    else
      match splitTerm rest with
      | [] => [[c]]
      | s :: ss => (c :: s) :: ss

/-- `self.chunk_size = 512` (semantic_chat.py line 25). -/
def chunkSize : Nat := 512

/-- The sentence-accumulation loop of `chunk_text`: each stripped non-empty
sentence is appended to the running buffer together with `". "`; when the
buffer would reach `chunk_size` the buffer is flushed (stripped) and a new
buffer starts with the overflowing sentence; the final non-empty buffer is
flushed. -/
def chunkLoop : List (List Char) → List Char → List (List Char)
  | [], current => if current.isEmpty then [] else [pyStrip current]
  | s :: rest, current =>
    let s' := pyStrip s
    if s'.isEmpty then chunkLoop rest current
    else if current.length + s'.length < chunkSize then
      chunkLoop rest (current ++ s' ++ ['.', ' '])
    else if current.isEmpty then chunkLoop rest (s' ++ ['.', ' '])
    else pyStrip current :: chunkLoop rest (s' ++ ['.', ' '])

/-- `SemanticChatEngine.chunk_text` (semantic_chat.py lines 62-83). -/
def chunk_text (text : List Char) : List (List Char) :=
  chunkLoop (splitTerm text) []

/-- The characters that are neither whitespace nor sentence-terminal
separators: the "non-whitespace content modulo separators" of a text. -/
def keepContent (c : Char) : Bool := !(pyWS c || isTerm c)

/-! ## JSON serialization of the source-title list
`json.dumps(sources)` in `save_conversation` (semantic_chat.py line 214) and
`json.loads(h[2])` in `get_chat_history` (app_enhanced.py line 420),
modelled after CPython's `json` module with its defaults
(`ensure_ascii=True`, separator `", "` for arrays). -/

/-- Lower-case hex digit, as produced by CPython's `'%04x'` formatting. -/
def hexDigit (n : Nat) : Char :=
  if n < 10 then Char.ofNat (48 + n) else Char.ofNat (87 + n)

/-- Value of a hex digit; `json.loads` accepts both cases. -/
def hexVal (c : Char) : Option Nat :=
  if '0' ≤ c ∧ c ≤ '9' then some (c.toNat - 48)
  else if 'a' ≤ c ∧ c ≤ 'f' then some (c.toNat - 87)
  else if 'A' ≤ c ∧ c ≤ 'F' then some (c.toNat - 55)
  else none

/-- The four hex digits of `'%04x' % n` for `n < 0x10000`. -/
def hexDigits4 (n : Nat) : List Char :=
  [hexDigit (n / 4096 % 16), hexDigit (n / 256 % 16), hexDigit (n / 16 % 16), hexDigit (n % 16)]

/-- A `\uXXXX` escape sequence. -/
def encodeU (n : Nat) : List Char := '\\' :: 'u' :: hexDigits4 n

/-- One character as emitted by CPython's ASCII JSON string encoder
(`py_encode_basestring_ascii`): the two-character escapes for `"`, `\`,
backspace, form feed, newline, carriage return and tab; `\uXXXX` for other
control characters and all non-ASCII characters up to U+FFFF; a surrogate
pair of `\uXXXX` escapes for astral characters. -/
def encodeChar (c : Char) : List Char :=
  if c = '"' then ['\\', '"']
  else if c = '\\' then ['\\', '\\']
  else if c = Char.ofNat 8 then ['\\', 'b']
  else if c = Char.ofNat 12 then ['\\', 'f']
  else if c = '\n' then ['\\', 'n']
  else if c = Char.ofNat 13 then ['\\', 'r']
  else if c = '\t' then ['\\', 't']
  else if c.toNat < 32 then encodeU c.toNat
  else if c.toNat < 127 then [c]
  else if c.toNat < 65536 then encodeU c.toNat
  else encodeU (55296 + (c.toNat - 65536) / 1024) ++ encodeU (56320 + (c.toNat - 65536) % 1024)

/-- A JSON string literal: quote, escaped characters, quote. -/
def encodeString (s : List Char) : List Char := '"' :: (s.flatMap encodeChar) ++ ['"']

/-- Join pieces with a separator (`", ".join` framing used by `json.dumps`
for arrays). -/
def joinSep (sep : List Char) : List (List Char) → List Char
  | [] => []
  | [x] => x
  | x :: y :: rest => x ++ sep ++ joinSep sep (y :: rest)

/-- `json.dumps(sources)` for a list of strings, with the default
`", "` item separator. -/
def dumps (l : List (List Char)) : List Char :=
  '[' :: joinSep [',', ' '] (l.map encodeString) ++ [']']

/-- JSON whitespace (space, tab, newline, carriage return). -/
def jsonWS (c : Char) : Bool :=
  c = ' ' || c = '\t' || c = '\n' || c = Char.ofNat 13

/-- The single-character escapes accepted after a backslash by
`json.loads`. -/
def escChar (c : Char) : Option Char :=
  if c = '"' then some '"'
  else if c = '\\' then some '\\'
  else if c = '/' then some '/'
  else if c = 'b' then some (Char.ofNat 8)
  else if c = 'f' then some (Char.ofNat 12)
  else if c = 'n' then some '\n'
  else if c = 'r' then some (Char.ofNat 13)
  else if c = 't' then some '\t'
  else none

/-- Four hex digits combined into a code unit. -/
def hex4 (a b c d : Char) : Option Nat :=
  match hexVal a, hexVal b, hexVal c, hexVal d with
  | some x, some y, some z, some w => some (4096 * x + 256 * y + 16 * z + w)
  | _, _, _, _ => none

/-- One escape sequence after a backslash, as `json.loads` decodes it:
returns the decoded character and the number of input characters consumed
(1 for a short escape, 5 for `uXXXX`, 11 for a surrogate pair).  Surrogate
pairs are recombined exactly as CPython's `py_scanstring` does.  A lone
surrogate escape would make `json.loads` produce a string containing an
unpaired surrogate code unit, which no Lean `Char` represents; the encoder
never emits one, and the model answers `none` there. -/
def parseEsc : List Char → Option (Char × Nat)
  | [] => none
  | e :: rest2 =>
    if e = 'u' then
      match rest2 with
      | a :: b :: c1 :: d :: rest3 =>
        match hex4 a b c1 d with
        | none => none
        | some n =>
          if 55296 ≤ n ∧ n ≤ 56319 then
            match rest3 with
            | s1 :: s2 :: a2 :: b2 :: c2 :: d2 :: _ =>
              if s1 = '\\' ∧ s2 = 'u' then
                match hex4 a2 b2 c2 d2 with
                | none => none
                | some m =>
                  if 56320 ≤ m ∧ m ≤ 57343 then
                    some (Char.ofNat (65536 + (n - 55296) * 1024 + (m - 56320)), 11)
                  else none
              else none
            | _ => none
          else if 56320 ≤ n ∧ n ≤ 57343 then none
          else some (Char.ofNat n, 5)
      | _ => none
    else (escChar e).map (fun ch => (ch, 1))

/-- The scanner's position inside a JSON array of strings. -/
inductive ScanMode where
  /-- Before a string item: whitespace, then an opening quote. -/
  | item
  /-- Inside a double-quoted string, with the characters read so far in
  reverse. -/
  | str (acc : List Char)
  /-- After a completed string item: whitespace, then a comma continues the
  array and a closing bracket ends it. -/
  | after
deriving DecidableEq, Repr

/-- The `json.loads` scanner for an array of strings, after the opening
bracket: collects the decoded items in order and returns them with the
unconsumed remainder.  Array items other than strings never occur in the
encoder's output and are outside this model. -/
def scanArray : List Char → ScanMode → List (List Char) →
    Option (List (List Char) × List Char)
  | [], _, _ => none
  | c :: rest, ScanMode.item, done =>
    if jsonWS c then scanArray rest .item done
    else if c = '"' then scanArray rest (.str []) done
    else none
  | c :: rest, ScanMode.str acc, done =>
    if c = '"' then scanArray rest .after (done ++ [acc.reverse])
    else if c = '\\' then
      match parseEsc rest with
      | none => none
      | some (ch, k) => scanArray (rest.drop k) (.str (ch :: acc)) done
    else scanArray rest (.str (c :: acc)) done
  | c :: rest, ScanMode.after, done =>
    if jsonWS c then scanArray rest .after done
    else if c = ',' then scanArray rest .item done
    else if c = ']' then some (done, rest)
    else none
termination_by l _ _ => l.length
decreasing_by
  all_goals simp [List.length_drop]
  omega

/-- Drop leading JSON whitespace. -/
def skipWS (l : List Char) : List Char := l.dropWhile jsonWS

/-- Parse a JSON array of strings, returning the value and the unconsumed
remainder. -/
def parseArray (l : List Char) : Option (List (List Char) × List Char) :=
  match skipWS l with
  | [] => none
  | c :: rest =>
    if c = '[' then
      match skipWS rest with
      | [] => none
      | d :: r => if d = ']' then some ([], r) else scanArray rest ScanMode.item []
    else none

/-- `json.loads` on a document that is an array of strings: parse the array
and require that only whitespace follows ("Extra data" is an error). -/
def loads (l : List Char) : Option (List (List Char)) :=
  match parseArray l with
  | none => none
  | some (v, rest) => if (skipWS rest).isEmpty then some v else none

/-! ## Data model: SQLite tables and the engine's in-memory state -/

/-- A row of the `stories` table (app_enhanced.py lines 49-59); list order
models insertion/autoincrement-id order. -/
structure Story where
  id : Int
  user_id : Int
  title : List Char
  content : List Char
deriving DecidableEq, Repr

/-- A row of the `story_chunks` table (semantic_chat.py lines 34-44); the
`embedding` blob stores the raw (pre-normalization) vector, because
`tobytes()` runs before the in-place `faiss.normalize_L2`. -/
structure DBChunk where
  story_id : Int
  chunk_text : List Char
  chunk_index : Nat
  embedding : List ℚ
deriving DecidableEq, Repr

/-- A row of the `conversation_history` table (semantic_chat.py lines
47-57); `sources` holds the JSON-serialized title list (TEXT column). -/
structure ConvRow where
  user_id : Int
  question : List Char
  answer : List Char
  sources : List Char
deriving DecidableEq, Repr

/-- The committed state of `users.db` (retrieval-relevant tables). -/
structure DB where
  stories : List Story
  story_chunks : List DBChunk
  conversation_history : List ConvRow
deriving DecidableEq, Repr

/-- An entry of `self.story_chunks` (the `chunk_metadata` dicts built in
`build_semantic_index`, semantic_chat.py lines 122-128). -/
structure ChunkMeta where
  story_id : Int
  chunk_index : Nat
  chunk_text : List Char
deriving DecidableEq, Repr

/-- The engine's mutable in-memory state: `self.index` (the FAISS
`IndexFlatIP`, modelled by the list of vectors it stores, `none` when the
attribute is still `None`) and `self.story_chunks`.  There is one such
state per process, shared by all users (semantic_chat.py lines 23-24). -/
structure EngineState where
  index : Option (List (List ℚ))
  story_chunks : List ChunkMeta
deriving DecidableEq, Repr

/-- A result dict of `semantic_search` (semantic_chat.py lines 175-179). -/
structure SearchResult where
  score : ℚ
  chunk : List Char
  story_id : Int
deriving DecidableEq, Repr

/-- The dict returned by `process_question`: `confidence = none` models the
absence of the `'confidence'` key from the returned dict. -/
structure QAResult where
  answer : List Char
  sources : List (List Char)
  confidence : Option ℚ
deriving DecidableEq, Repr

/-- The fresh engine created at import time (semantic_chat.py lines 18-26):
no index, no chunks. -/
def initialEngine : EngineState := ⟨none, []⟩

/-! ## Index construction: `build_semantic_index` (semantic_chat.py 89-157)

The embedding collaborator `SentenceTransformer.encode` is the parameter
`embed` (it may raise, modelled by `Except.error`), and the in-place
`faiss.normalize_L2` is the parameter `normalize` (L2 normalization divides
by a real square root, which the external collaborator performs; no claim
depends on its numeric values). -/

/-- `'SELECT id, title, content FROM stories WHERE user_id = ?'`. -/
def userStories (db : DB) (user_id : Int) : List Story :=
  db.stories.filter (fun s => s.user_id == user_id)

/-- `full_text = f"{title}\n\n{content}"`. -/
def nl2 : List Char := ['\n', '\n']

/-- The chunk-metadata dicts built from one story (semantic_chat.py lines
115-128): chunk index enumerated per story. -/
def storyMeta (s : Story) : List ChunkMeta :=
  ((chunk_text (s.title ++ nl2 ++ s.content)).enum).map
    (fun p => ⟨s.id, p.1, p.2⟩)

/-- The `chunk_metadata` list accumulated over all of the user's stories. -/
def chunkMetadata (db : DB) (user_id : Int) : List ChunkMeta :=
  (userStories db user_id).flatMap storyMeta

/-- `SemanticChatEngine.build_semantic_index` (semantic_chat.py 89-157).
Returns the engine state, the committed database, and `some ()` when an
`EmbeddingError` propagates to the caller.  The two early returns commit
nothing; on an embedding failure the connection is never committed either,
so the uncommitted `DELETE` of the user's chunk rows is rolled back and the
committed database is unchanged.  On success the index is built from the
normalized embeddings while the chunk rows store the raw ones, and
`self.story_chunks` becomes the fresh metadata list. -/
def build_semantic_index
    (embed : List (List Char) → Except Unit (List (List ℚ)))
    (normalize : List ℚ → List ℚ)
    (st : EngineState) (db : DB) (user_id : Int) :
    EngineState × DB × Option Unit :=
  let stories := userStories db user_id
  if stories.isEmpty then (st, db, none)
  else
    let metadata := chunkMetadata db user_id
    let all_chunks := metadata.map ChunkMeta.chunk_text
    if all_chunks.isEmpty then (st, db, none)
    else
      match embed all_chunks with
      | .error e => (st, db, some e)
      | .ok embeddings =>
        let kept := db.story_chunks.filter
          (fun c => !((stories.map Story.id).contains c.story_id))
        let rows := (metadata.zip embeddings).map
          (fun p => DBChunk.mk p.1.story_id p.1.chunk_text p.1.chunk_index p.2)
        ({ index := some (embeddings.map normalize), story_chunks := metadata },
         { db with story_chunks := kept ++ rows }, none)

/-! ## Retrieval: `semantic_search` (semantic_chat.py 159-181) -/

/-- Inner product of two stored vectors. -/
def dot (u v : List ℚ) : ℚ := (List.zipWith (· * ·) u v).sum

/-- The distance FAISS writes into unused result slots when `k` exceeds the
number of stored vectors: the worst inner-product value, the most negative
32-bit float (`-FLT_MAX`); the corresponding label is `-1`.  No claim
depends on the exact value, only on the label. -/
def paddingScore : ℚ := -340282346638528859811704183484516925440

/-- Insert a `(score, label)` hit into a list ranked by descending score;
ties keep ascending label (insertion) order, matching the deterministic
output of FAISS exact flat search. -/
def insertHit (x : ℚ × Int) : List (ℚ × Int) → List (ℚ × Int)
  | [] => [x]
  | y :: ys =>
    if y.1 < x.1 ∨ (x.1 = y.1 ∧ x.2 ≤ y.2) then x :: y :: ys else y :: insertHit x ys

/-- Rank all hits by descending score. -/
def rankHits (l : List (ℚ × Int)) : List (ℚ × Int) := l.foldr insertHit []

/-- `IndexFlatIP.search(query, k)` for one query vector: the `k` best
`(score, label)` pairs over the stored vectors, padded with
`(-FLT_MAX, -1)` entries when fewer than `k` vectors are stored. -/
def faissSearch (stored : List (List ℚ)) (q : List ℚ) (k : Nat) : List (ℚ × Int) :=
  let scored := stored.enum.map (fun p => (dot q p.2, (p.1 : Int)))
  let ranked := (rankHits scored).take k
  ranked ++ List.replicate (k - ranked.length) (paddingScore, -1)

/-- Python list indexing `l[i]`: negative indices count from the end;
`none` models the `IndexError` raised when `i` is out of range. -/
def pyGet (l : List ChunkMeta) (i : Int) : Option ChunkMeta :=
  if 0 ≤ i then l.get? i.toNat
  else if 0 ≤ (l.length : Int) + i then l.get? ((l.length : Int) + i).toNat
  else none

/-- The result-collection loop of `semantic_search` (semantic_chat.py lines
171-179): for each hit, `if idx < len(self.story_chunks)` appends
`self.story_chunks[idx]`; `none` models an `IndexError` escaping the
loop. -/
def collectResults (chunks : List ChunkMeta) : List (ℚ × Int) → Option (List SearchResult)
  | [] => some []
  | (score, idx) :: rest =>
    if idx < (chunks.length : Int) then
      match pyGet chunks idx with
      | some ci =>
        (collectResults chunks rest).map (fun rs => ⟨score, ci.chunk_text, ci.story_id⟩ :: rs)
      | none => none
    else collectResults chunks rest

/-- `SemanticChatEngine.semantic_search` (semantic_chat.py 159-181).
`embedQuery` is the query-side embedding collaborator (encode followed by
the in-place normalize); `Except.error` models a Python exception escaping
the call (an `EmbeddingError`, or an `IndexError` from the loop). -/
def semantic_search (embedQuery : List Char → Except Unit (List ℚ))
    (st : EngineState) (query : List Char) (top_k : Nat := 5) :
    Except Unit (List SearchResult) :=
  match st.index, st.story_chunks with
  | none, _ => .ok []
  | some _, [] => .ok []
  | some stored, _ :: _ =>
    match embedQuery query with
    | .error e => .error e
    | .ok qv =>
      match collectResults st.story_chunks (faissSearch stored qv top_k) with
      | none => .error ()
      | some rs => .ok rs

/-! ## Answer synthesis, context assembly, persistence, question pipeline -/

/-- The fixed fallback of `generate_answer` (semantic_chat.py line 190). -/
def fallbackAnswer : List Char :=
  "I couldn't find a specific answer to your question.".data

/-- The no-result answer of `process_question` (semantic_chat.py 231). -/
def noRelevantMsg : List Char :=
  "I couldn't find any relevant information in your uploaded stories.".data

/-- The generic error answer of `process_question` (semantic_chat.py 268). -/
def processingErrorMsg : List Char :=
  "I encountered an error processing your question. Please try again.".data

/-- The zero-story answer of `chat_api` (app_enhanced.py 381). -/
def noStoriesMsg : List Char :=
  "You have no uploaded stories to ask questions about. Please upload some stories first.".data

/-- `SemanticChatEngine.generate_answer` (semantic_chat.py 183-190): the
synthesis collaborator (`qa_pipeline`) answers, and any failure is caught
and replaced by the fixed fallback message. -/
def generate_answer (synthesize : List Char → List Char → Except Unit (List Char))
    (question context : List Char) : List Char :=
  match synthesize question context with
  | .ok a => a
  | .error _ => fallbackAnswer

/-- `context = "\n\n".join([result['chunk'] for result in search_results[:3]])`
(semantic_chat.py line 236). -/
def buildContext (results : List SearchResult) : List Char :=
  joinSep nl2 ((results.take 3).map SearchResult.chunk)

/-- Python `max` over a nonempty list of scores. -/
def pyMax (x : ℚ) (l : List ℚ) : ℚ := l.foldl max x

/-- `SemanticChatEngine.save_conversation` (semantic_chat.py 206-217):
append a row whose `sources` column holds `json.dumps(sources)`. -/
def save_conversation (db : DB) (user_id : Int) (question answer : List Char)
    (sources : List (List Char)) : DB :=
  { db with conversation_history :=
      db.conversation_history ++ [⟨user_id, question, answer, dumps sources⟩] }

/-- `SemanticChatEngine.process_question` (semantic_chat.py 219-270).
Inside the `try`: rebuild when `self.index` is `None`, search with the
default `top_k = 5`, short-circuit on no results, assemble the context,
synthesize (with the internal fallback), look the top-3 story ids up in the
`stories` table (`WHERE id IN (...)` returns each matching row once, in
table order), persist the conversation, and return answer, sources and the
maximum result score as confidence.  The `except` turns any escaped
exception into the generic error dict, whose `'confidence'` key — like the
no-result dict's — is absent (`none`). -/
def process_question
    (embed : List (List Char) → Except Unit (List (List ℚ)))
    (normalize : List ℚ → List ℚ)
    (embedQuery : List Char → Except Unit (List ℚ))
    (synthesize : List Char → List Char → Except Unit (List Char))
    (st : EngineState) (db : DB) (user_id : Int) (question : List Char) :
    EngineState × DB × QAResult :=
  match (if st.index.isNone then build_semantic_index embed normalize st db user_id
         else (st, db, none)) with
  | (st1, db1, some _) => (st1, db1, ⟨processingErrorMsg, [], none⟩)
  | (st1, db1, none) =>
    match semantic_search embedQuery st1 question 5 with
    | .error _ => (st1, db1, ⟨processingErrorMsg, [], none⟩)
    | .ok [] => (st1, db1, ⟨noRelevantMsg, [], none⟩)
    | .ok (r :: rs) =>
      let context := buildContext (r :: rs)
      let answer := generate_answer synthesize question context
      let story_ids := ((r :: rs).take 3).map SearchResult.story_id
      let sources := (db1.stories.filter (fun s => story_ids.contains s.id)).map Story.title
      let db2 := save_conversation db1 user_id question answer sources
      (st1, db2, ⟨answer, sources, some (pyMax r.score (rs.map SearchResult.score))⟩)

/-! ## The routes of app_enhanced.py that drive the engine -/

/-- `chat_api` (app_enhanced.py 351-397), after authentication and input
validation: count the user's stories and short-circuit with confidence 0
when there are none; otherwise build the index if `chat_engine.index` is
falsy and delegate to `process_question`.  `Except.error` models the HTTP
500 response produced when an exception escapes (a build failure at this
level leaves the engine unchanged and the uncommitted delete rolled
back). -/
def chat_api
    (embed : List (List Char) → Except Unit (List (List ℚ)))
    (normalize : List ℚ → List ℚ)
    (embedQuery : List Char → Except Unit (List ℚ))
    (synthesize : List Char → List Char → Except Unit (List Char))
    (st : EngineState) (db : DB) (user_id : Int) (question : List Char) :
    EngineState × DB × Except Unit QAResult :=
  let story_count := (db.stories.filter (fun s => s.user_id == user_id)).length
  if story_count == 0 then (st, db, .ok ⟨noStoriesMsg, [], some 0⟩)
  else
    match (if st.index.isNone then build_semantic_index embed normalize st db user_id
           else (st, db, none)) with
    | (_, _, some _) => (st, db, .error ())
    | (st1, db1, none) =>
      let (st2, db2, result) :=
        process_question embed normalize embedQuery synthesize st1 db1 user_id question
      (st2, db2, .ok result)

/-- The autoincrement id the `stories` table assigns to the next insert. -/
def nextStoryId (db : DB) : Int := (db.stories.map Story.id).foldl max 0 + 1

/-- `upload_story` (app_enhanced.py 258-291) for an authenticated user:
reject blank title or content, otherwise insert the stripped story and
rebuild the user's semantic index. -/
def upload_story
    (embed : List (List Char) → Except Unit (List (List ℚ)))
    (normalize : List ℚ → List ℚ)
    (st : EngineState) (db : DB) (user_id : Int) (title content : List Char) :
    EngineState × DB × Option Unit :=
  if (pyStrip title).isEmpty || (pyStrip content).isEmpty then (st, db, none)
  else
    let db1 := { db with stories :=
      db.stories ++ [⟨nextStoryId db, user_id, pyStrip title, pyStrip content⟩] }
    build_semantic_index embed normalize st db1 user_id

/-- `delete_story` (app_enhanced.py 323-349): delete the story if it exists
and belongs to the user, then rebuild the user's semantic index; the
returned flag tells whether a deletion happened. -/
def delete_story
    (embed : List (List Char) → Except Unit (List (List ℚ)))
    (normalize : List ℚ → List ℚ)
    (st : EngineState) (db : DB) (user_id story_id : Int) :
    EngineState × DB × Bool :=
  if (db.stories.filter (fun s => s.id == story_id && s.user_id == user_id)).isEmpty then
    (st, db, false)
  else
    let db1 := { db with stories := db.stories.filter (fun s => !(s.id == story_id)) }
    let (st1, db2, _) := build_semantic_index embed normalize st db1 user_id
    (st1, db2, true)

/-- One history entry as returned by `get_chat_history`. -/
structure HistEntry where
  question : List Char
  answer : List Char
  sources : List (List Char)
deriving DecidableEq, Repr

/-- The per-row transform of `get_chat_history` (app_enhanced.py 417-422):
`json.loads(h[2]) if h[2] else []`; `none` models a decoding exception
turning the whole request into the error response. -/
def decodeHistRow (r : ConvRow) : Option HistEntry :=
  if r.sources.isEmpty then some ⟨r.question, r.answer, []⟩
  else (loads r.sources).map (fun s => ⟨r.question, r.answer, s⟩)

/-- `get_chat_history` (app_enhanced.py 399-426): the user's ten most
recent conversation rows, newest first, each decoded by `decodeHistRow`. -/
def get_chat_history (db : DB) (user_id : Int) : Option (List HistEntry) :=
  (((db.conversation_history.filter (fun r => r.user_id == user_id)).reverse.take 10).mapM
    decodeHistRow)

/-! ## Concrete scenario fixtures

Deterministic stub collaborators (as the specification's design notes
suggest for testing) and the database/engine runs the concrete theorems
below evaluate. -/

/-- A stub embedding collaborator: every chunk embeds to `[1]`. -/
def okEmbed : List (List Char) → Except Unit (List (List ℚ)) :=
  fun ts => .ok (ts.map fun _ => [1])

/-- A stub for the in-place L2 normalization. -/
def idNormalize : List ℚ → List ℚ := fun v => v

/-- A stub query embedder: every query embeds to `[1]`. -/
def okQueryEmbed : List Char → Except Unit (List ℚ) := fun _ => .ok [1]

/-- A stub synthesizer that always answers `"ans"`. -/
def okSynth : List Char → List Char → Except Unit (List Char) :=
  fun _ _ => .ok ['a', 'n', 's']

/-- Two tenants, one story each: story 1 (title `"A"`) belongs to user 1,
story 2 (title `"B"`) to user 2. -/
def dbTwoTenants : DB :=
  ⟨[⟨1, 1, ['A'], ['c', 'a', 't']⟩, ⟨2, 2, ['B'], ['d', 'o', 'g']⟩], [], []⟩

/-- User 1 asks first on a fresh engine: this installs user 1's chunks in
the global index. -/
def c1FirstAsk : EngineState × DB × QAResult :=
  process_question okEmbed idNormalize okQueryEmbed okSynth initialEngine dbTwoTenants 1 ['q']

/-- User 2 then asks on the resulting state. -/
def c1SecondAsk : EngineState × DB × QAResult :=
  process_question okEmbed idNormalize okQueryEmbed okSynth c1FirstAsk.1 c1FirstAsk.2.1 2 ['r']

/-- User 1 uploads story `"A"` into an empty system. -/
def c2FirstUpload : EngineState × DB × Option Unit :=
  upload_story okEmbed idNormalize initialEngine ⟨[], [], []⟩ 1 ['A'] ['c', 'a', 't']

/-- User 2 then uploads story `"B"`; the rebuild overwrites the global
index with user 2's chunks. -/
def c2SecondUpload : EngineState × DB × Option Unit :=
  upload_story okEmbed idNormalize c2FirstUpload.1 c2FirstUpload.2.1 2 ['B'] ['d', 'o', 'g']

/-- User 1's next question, after both uploads. -/
def c2Ask : EngineState × DB × QAResult :=
  process_question okEmbed idNormalize okQueryEmbed okSynth c2SecondUpload.1
    c2SecondUpload.2.1 1 ['q']

/-- One tenant, one story: the build that installs user 1's index. -/
def c3FirstBuild : EngineState × DB × Option Unit :=
  build_semantic_index okEmbed idNormalize initialEngine
    ⟨[⟨1, 1, ['A'], ['c', 'a', 't']⟩], [], []⟩ 1

/-- The rebuild for user 2, who owns zero stories. -/
def c3EmptyRebuild : EngineState × DB × Option Unit :=
  build_semantic_index okEmbed idNormalize c3FirstBuild.1 c3FirstBuild.2.1 2

/-- A build over two one-chunk stories of user 1: an index of 2 chunks. -/
def c5Build : EngineState × DB × Option Unit :=
  build_semantic_index okEmbed idNormalize initialEngine
    ⟨[⟨1, 1, ['A'], ['c', 'a', 't']⟩, ⟨2, 1, ['B'], ['d', 'o', 'g']⟩], [], []⟩ 1

/-! ## Theorems

The claims C1..C10 of the specification, settled against the embedding
above.  The concrete runs below use benign collaborators: `embed` maps
every chunk to the unit vector `[1]`, `normalize` is the identity on it,
`embedQuery` embeds every query as `[1]`, and `synthesize` answers
`"ans"`. -/

/-- C1 (code bug): tenant isolation fails.  The engine keeps one global
`self.index`/`self.story_chunks` pair shared by every user, and
`process_question` only rebuilds when the index is `None`.  Here user 1
(owner of story "A") asks first, which installs user 1's chunks in the
global index; user 2 (owner of story "B") then asks, and the answer is
served from user 1's index: user 2's result cites user 1's document title
`['A']` as its source, and no rebuild happens for user 2's query. -/
theorem cross_tenant_query_served_from_other_tenants_index :
    c1SecondAsk.2.2.sources = [['A']] ∧ c1SecondAsk.1 = c1FirstAsk.1 ∧
    (dbTwoTenants.stories.filter (fun s => s.title == ['A'])).all
      (fun s => s.user_id == 1) = true := by
  simp +decide [c1FirstAsk, c1SecondAsk, okEmbed, idNormalize, okQueryEmbed, okSynth, dbTwoTenants,
    process_question, build_semantic_index, userStories, chunkMetadata,
    storyMeta, chunk_text, splitTerm, chunkLoop, pyStrip, pyWS, isTerm, chunkSize, nl2,
    initialEngine, semantic_search, faissSearch, rankHits, insertHit, dot,
    collectResults, pyGet, generate_answer, buildContext, joinSep, save_conversation,
    List.enum, List.enumFrom, List.filter, List.flatMap, List.dropWhile, List.zip,
    List.zipWith, List.replicate, List.contains]

/-- C2 (code bug): freshness fails.  User 1 uploads story "A" (which does
rebuild), then user 2 uploads story "B" (whose rebuild overwrites the
single global index with user 2's chunks only).  User 1's next query is
answered with no rebuild (`p.1 = u2.1`) from an index containing no chunk
of user 1's just-added document — its only source is user 2's title
`['B']`. -/
theorem query_after_creation_served_from_stale_other_tenant_index :
    c2Ask.2.2.sources = [['B']] ∧ c2Ask.1 = c2SecondUpload.1 ∧
    c2SecondUpload.1.story_chunks.all (fun m => m.story_id == 2) = true := by
  simp +decide [c2FirstUpload, c2SecondUpload, c2Ask, upload_story, nextStoryId,
    okEmbed, idNormalize, okQueryEmbed, okSynth, dbTwoTenants,
    process_question, build_semantic_index, userStories, chunkMetadata,
    storyMeta, chunk_text, splitTerm, chunkLoop, pyStrip, pyWS, isTerm, chunkSize, nl2,
    initialEngine, semantic_search, faissSearch, rankHits, insertHit, dot,
    collectResults, pyGet, generate_answer, buildContext, joinSep, save_conversation,
    List.enum, List.enumFrom, List.filter, List.flatMap, List.dropWhile, List.zip,
    List.zipWith, List.replicate, List.contains]

/-- C3 (code bug): rebuilding for a tenant with zero documents does not
clear the index.  `build_semantic_index` returns at `if not stories`
without touching `self.index`/`self.story_chunks`, so after a rebuild for
user 2 (who owns nothing) the previous index — built from user 1's story —
is left fully in place and a subsequent search still returns its chunks
instead of no results. -/
theorem rebuild_with_zero_documents_leaves_previous_index_searchable :
    c3EmptyRebuild = (c3FirstBuild.1, c3FirstBuild.2.1, none) ∧
    semantic_search okQueryEmbed c3EmptyRebuild.1 ['q'] 5 =
      .ok (⟨1, ['A', '\n', '\n', 'c', 'a', 't', '.'], 1⟩ ::
        List.replicate 4 ⟨paddingScore, ['A', '\n', '\n', 'c', 'a', 't', '.'], 1⟩) := by
  simp +decide [c3FirstBuild, c3EmptyRebuild, okEmbed, idNormalize, okQueryEmbed, okSynth, dbTwoTenants,
    process_question, build_semantic_index, userStories, chunkMetadata,
    storyMeta, chunk_text, splitTerm, chunkLoop, pyStrip, pyWS, isTerm, chunkSize, nl2,
    initialEngine, semantic_search, faissSearch, rankHits, insertHit, dot,
    collectResults, pyGet, generate_answer, buildContext, joinSep, save_conversation,
    List.enum, List.enumFrom, List.filter, List.flatMap, List.dropWhile, List.zip,
    List.zipWith, List.replicate, List.contains]

/-- C5 (code bug): a search whose `k` exceeds the number of indexed chunks
returns more results than there are chunks.  FAISS pads the missing slots
with label `-1`; the guard `if idx < len(self.story_chunks)` admits `-1`,
and Python's negative indexing then appends `self.story_chunks[-1]` — the
last chunk — once per padding slot.  With 2 indexed chunks and the default
`top_k = 5`, the search returns 5 results, the last three being spurious
duplicates of the final chunk carrying FAISS's sentinel score. -/
theorem search_returns_more_results_than_indexed_chunks :
    c5Build.1.story_chunks.length = 2 ∧
    semantic_search okQueryEmbed c5Build.1 ['q'] 5 =
      .ok [⟨1, ['A', '\n', '\n', 'c', 'a', 't', '.'], 1⟩,
           ⟨1, ['B', '\n', '\n', 'd', 'o', 'g', '.'], 2⟩,
           ⟨paddingScore, ['B', '\n', '\n', 'd', 'o', 'g', '.'], 2⟩,
           ⟨paddingScore, ['B', '\n', '\n', 'd', 'o', 'g', '.'], 2⟩,
           ⟨paddingScore, ['B', '\n', '\n', 'd', 'o', 'g', '.'], 2⟩] := by
  simp +decide [c5Build, okEmbed, idNormalize, okQueryEmbed, okSynth, dbTwoTenants,
    process_question, build_semantic_index, userStories, chunkMetadata,
    storyMeta, chunk_text, splitTerm, chunkLoop, pyStrip, pyWS, isTerm, chunkSize, nl2,
    initialEngine, semantic_search, faissSearch, rankHits, insertHit, dot,
    collectResults, pyGet, generate_answer, buildContext, joinSep, save_conversation,
    List.enum, List.enumFrom, List.filter, List.flatMap, List.dropWhile, List.zip,
    List.zipWith, List.replicate, List.contains]

/-- C4 (counterexample): an `ask` result does not always contain a
confidence value.  A tenant whose only story is punctuation (title `"."`,
content `"."`) has one story but zero chunks; `chat_api` passes its
story-count check, the rebuild produces no chunks, the search returns no
results, and `process_question` returns the no-relevant-information dict
without any `'confidence'` key — not confidence 0. -/
theorem ask_without_chunks_returns_no_confidence_key :
    let embed : List (List Char) → Except Unit (List (List ℚ)) :=
      fun ts => .ok (ts.map fun _ => [1])
    let normalize : List ℚ → List ℚ := fun v => v
    let embq : List Char → Except Unit (List ℚ) := fun _ => .ok [1]
    let synth : List Char → List Char → Except Unit (List Char) :=
      fun _ _ => .ok ['a', 'n', 's']
    (chat_api embed normalize embq synth initialEngine
      ⟨[⟨1, 1, ['.'], ['.']⟩], [], []⟩ 1 ['q']).2.2 =
      .ok ⟨noRelevantMsg, [], none⟩ := by
  simp +decide [chat_api, process_question, build_semantic_index, userStories,
    chunkMetadata, storyMeta, chunk_text, splitTerm, chunkLoop, pyStrip, pyWS, isTerm,
    chunkSize, nl2, initialEngine, semantic_search, List.filter, List.flatMap,
    List.dropWhile, List.enum, List.enumFrom]

/-- Length of a separator-joined list: total piece length plus one
separator per gap. -/
theorem joinSep_length (sep : List Char) (l : List (List Char)) :
    (joinSep sep l).length = (l.map List.length).sum + sep.length * (l.length - 1) := by
  induction l with
  | nil => simp [joinSep]
  | cons x rest ih =>
    cases rest with
    | nil => simp [joinSep]
    | cons y t =>
      have e1 : (y :: t).length - 1 = t.length := by simp
      have e2 : (x :: y :: t).length - 1 = t.length + 1 := by
        simp only [List.length_cons]
        omega
      rw [joinSep, List.length_append, List.length_append, ih, e1, e2]
      simp only [List.map_cons, List.sum_cons, List.length_cons]
      ring

/-- C7 (counterexample): the assembled context is not bounded by the
configured maximum.  A single ranked chunk of 513 characters is emitted as
the context in full — 513 characters, untruncated — exceeding
`chunk_size = 512`, the only configured length in the engine. -/
theorem context_exceeds_chunk_size_untruncated :
    buildContext [⟨1, List.replicate 513 'a', 1⟩] = List.replicate 513 'a' ∧
    chunkSize < (buildContext [⟨1, List.replicate 513 'a', 1⟩]).length := by
  refine ⟨rfl, ?_⟩
  show chunkSize < (List.replicate 513 'a').length
  rw [List.length_replicate]
  decide

/-- C7 (amended): the context is the chunk texts of the top-3 (or fewer)
results joined in ranked order with the `"\n\n"` separator, with no
maximum-length bound and no truncation: its length always equals the sum
of the included chunks' full lengths plus two characters per separator. -/
theorem context_length_is_total_of_top3_chunks (results : List SearchResult) :
    (buildContext results).length =
      ((results.take 3).map (fun r => r.chunk.length)).sum +
        2 * ((results.take 3).length - 1) := by
  simpa [buildContext, nl2, Function.comp] using
    joinSep_length nl2 ((results.take 3).map SearchResult.chunk)

/-- C8 (confirmed): atomicity of rebuild under embedding failure.  If the
tenant has at least one chunk to embed and the embedding collaborator
fails on the batch, `build_semantic_index` raises without having modified
either the in-memory index/chunk list or the committed database (the
uncommitted `DELETE` is rolled back), the failure reaches the caller, and
any subsequent search behaves exactly as against the last successfully
built index. -/
theorem rebuild_embedding_failure_leaves_state_unchanged
    (embed : List (List Char) → Except Unit (List (List ℚ)))
    (normalize : List ℚ → List ℚ) (st : EngineState) (db : DB) (user_id : Int)
    (hchunks : chunkMetadata db user_id ≠ [])
    (hfail : embed ((chunkMetadata db user_id).map ChunkMeta.chunk_text) = .error ()) :
    build_semantic_index embed normalize st db user_id = (st, db, some ()) ∧
    ∀ (embq : List Char → Except Unit (List ℚ)) (q : List Char) (k : Nat),
      semantic_search embq (build_semantic_index embed normalize st db user_id).1 q k =
        semantic_search embq st q k := by
  have hstories : (userStories db user_id).isEmpty = false := by
    rcases h : userStories db user_id with _ | _
    · exact absurd (by simp [chunkMetadata, h]) hchunks
    · rfl
  have hmain : build_semantic_index embed normalize st db user_id = (st, db, some ()) := by
    simp [build_semantic_index, hstories, hfail, List.isEmpty_iff, hchunks]
  exact ⟨hmain, fun embq q k => by rw [hmain]⟩

/-- C8 (witness): a concrete tenant with one story and an embedding
collaborator that always fails: the rebuild reports the failure and leaves
the fresh engine and database untouched. -/
theorem rebuild_embedding_failure_witness :
    build_semantic_index (fun _ => .error ()) (fun v => v) initialEngine
      ⟨[⟨1, 1, ['A'], ['c', 'a', 't']⟩], [], []⟩ 1 =
      (initialEngine, ⟨[⟨1, 1, ['A'], ['c', 'a', 't']⟩], [], []⟩, some ()) ∧
    ∀ (embq : List Char → Except Unit (List ℚ)) (q : List Char) (k : Nat),
      semantic_search embq (build_semantic_index (fun _ => .error ()) (fun v => v)
          initialEngine ⟨[⟨1, 1, ['A'], ['c', 'a', 't']⟩], [], []⟩ 1).1 q k =
        semantic_search embq initialEngine q k :=
  rebuild_embedding_failure_leaves_state_unchanged (fun _ => .error ()) (fun v => v)
    initialEngine ⟨[⟨1, 1, ['A'], ['c', 'a', 't']⟩], [], []⟩ 1 (by decide) rfl

/-- C9 (confirmed): graceful degradation of `ask` under synthesis failure.
When the index is present, the search succeeds with at least one result
and the answer synthesizer fails, `process_question` still returns the
normal result dict: the answer is the fixed fallback message substituted
inside `generate_answer`, and the failure is not surfaced as the
error-path response (a confidence value is present). -/
theorem synthesis_failure_yields_fallback_answer
    (embed : List (List Char) → Except Unit (List (List ℚ)))
    (normalize : List ℚ → List ℚ)
    (embedQuery : List Char → Except Unit (List ℚ))
    (synthesize : List Char → List Char → Except Unit (List Char))
    (st : EngineState) (db : DB) (user_id : Int) (question : List Char)
    (r : SearchResult) (rs : List SearchResult)
    (hsynth : ∀ a b, synthesize a b = .error ())
    (hidx : st.index.isNone = false)
    (hres : semantic_search embedQuery st question 5 = .ok (r :: rs)) :
    (process_question embed normalize embedQuery synthesize st db user_id question).2.2.answer =
      fallbackAnswer ∧
    (process_question embed normalize embedQuery synthesize st db user_id
        question).2.2.confidence.isSome = true := by
  simp [process_question, hidx, hres, generate_answer, hsynth]

/-- C9 (witness): a concrete engine with one indexed chunk, a working
query embedder and an always-failing synthesizer: the ask returns the
fallback answer through the normal result path. -/
theorem synthesis_failure_fallback_witness :
    (process_question (fun _ => .ok []) (fun v => v) (fun _ => .ok [1])
        (fun _ _ => .error ()) ⟨some [[1]], [⟨1, 0, ['x']⟩]⟩ ⟨[], [], []⟩ 1 ['q']).2.2.answer =
      fallbackAnswer ∧
    (process_question (fun _ => .ok []) (fun v => v) (fun _ => .ok [1])
        (fun _ _ => .error ()) ⟨some [[1]], [⟨1, 0, ['x']⟩]⟩ ⟨[], [], []⟩ 1
        ['q']).2.2.confidence.isSome = true :=
  synthesis_failure_yields_fallback_answer _ _ _ _ _ _ _ _ ⟨1, ['x'], 1⟩
    (List.replicate 4 ⟨paddingScore, ['x'], 1⟩) (fun _ _ => rfl) rfl
    (by simp +decide [semantic_search, faissSearch, rankHits, insertHit, dot,
      collectResults, pyGet, List.enum, List.enumFrom, List.replicate])

/-- C4 (amended): the confidence semantics the code implements.  An ask
for a tenant with zero stories short-circuits in `chat_api` with
confidence 0 and empty sources; otherwise the result of
`process_question` either carries no confidence value at all (the
no-result and error paths) or carries exactly the maximum similarity
score of the nonempty search results — a raw inner-product value, not
clamped to [0, 1]. -/
theorem confidence_value_semantics
    (embed : List (List Char) → Except Unit (List (List ℚ)))
    (normalize : List ℚ → List ℚ)
    (embedQuery : List Char → Except Unit (List ℚ))
    (synthesize : List Char → List Char → Except Unit (List Char))
    (st : EngineState) (db : DB) (user_id : Int) (question : List Char) :
    ((db.stories.filter (fun s => s.user_id == user_id)).length = 0 →
      (chat_api embed normalize embedQuery synthesize st db user_id question).2.2 =
        .ok ⟨noStoriesMsg, [], some 0⟩) ∧
    ((process_question embed normalize embedQuery synthesize st db user_id
        question).2.2.confidence = none ∨
      ∃ r rs,
        semantic_search embedQuery
          (if st.index.isNone then build_semantic_index embed normalize st db user_id
           else (st, db, none)).1 question 5 = .ok (r :: rs) ∧
        (process_question embed normalize embedQuery synthesize st db user_id
            question).2.2.confidence = some (pyMax r.score (rs.map SearchResult.score))) := by
  constructor
  · intro h
    simp [chat_api, h]
  · rcases hb : (if st.index.isNone then build_semantic_index embed normalize st db user_id
        else (st, db, none)) with ⟨st1, db1, e⟩
    cases e with
    | some u =>
      left
      simp only [process_question]
      rw [hb]
    | none =>
      rcases hs : semantic_search embedQuery st1 question 5 with _ | rs0
      · left
        simp only [process_question]
        rw [hb]
        simp [hs]
      · cases rs0 with
        | nil =>
          left
          simp only [process_question]
          rw [hb]
          simp [hs]
        | cons r rs =>
          right
          refine ⟨r, rs, ?_, ?_⟩
          · simp only [hb]
          · simp only [process_question]
            rw [hb]
            simp [hs]

/-! ### C6: the chunker loses no non-separator content -/

/-- Dropping leading whitespace does not change the retained content. -/
theorem filter_keep_dropWhile (l : List Char) :
    (l.dropWhile pyWS).filter keepContent = l.filter keepContent := by
  induction l with
  | nil => rfl
  | cons c t ih =>
    by_cases h : pyWS c
    · have hk : keepContent c = false := by simp [keepContent, h]
      simp [List.dropWhile_cons, h, ih, List.filter_cons, hk]
    · simp [List.dropWhile_cons, h]

/-- Python `strip` does not change the retained content. -/
theorem filter_keep_pyStrip (l : List Char) :
    (pyStrip l).filter keepContent = l.filter keepContent := by
  unfold pyStrip
  rw [List.filter_reverse, filter_keep_dropWhile, List.filter_reverse,
    List.reverse_reverse, filter_keep_dropWhile]

/-- A sentence that strips to nothing is pure whitespace: it retains no
content. -/
theorem filter_keep_of_pyStrip_empty {l : List Char} (h : pyStrip l = []) :
    l.filter keepContent = [] := by
  rw [← filter_keep_pyStrip, h]
  rfl

/-- The sentence splitter never returns an empty list of candidates. -/
theorem splitTerm_ne_nil (l : List Char) : splitTerm l ≠ [] := by
  induction l with
  | nil => simp [splitTerm]
  | cons c rest ih =>
    unfold splitTerm
    split
    · cases rest with
      | nil => simp
      | cons d t =>
        by_cases hd : isTerm d
        · simpa [hd] using ih
        · simp [hd]
    · rcases h : splitTerm rest with _ | ⟨s, ss⟩
      · simp
      · simp

/-- The one-step unfolding of the sentence splitter. -/
theorem splitTerm_cons_eq (c : Char) (rest : List Char) :
    splitTerm (c :: rest) =
      if isTerm c then
        match rest with
        | [] => [[], []]
        | d :: _ => if isTerm d then splitTerm rest else [] :: splitTerm rest
      else
        match splitTerm rest with
        | [] => [[c]]
        | s :: ss => (c :: s) :: ss := rfl

/-- Concatenating the splitter's candidates recovers the input minus its
sentence-terminal characters. -/
theorem splitTerm_join (l : List Char) :
    (splitTerm l).flatten = l.filter (fun c => !(isTerm c)) := by
  induction l with
  | nil => rfl
  | cons c rest ih =>
    by_cases h : isTerm c
    · cases rest with
      | nil => simp [splitTerm_cons_eq, h]
      | cons d t =>
        rw [splitTerm_cons_eq, if_pos h]
        show (if isTerm d then splitTerm (d :: t) else [] :: splitTerm (d :: t)).flatten =
          List.filter (fun c => !(isTerm c)) (c :: d :: t)
        by_cases hd : isTerm d
        · rw [if_pos hd, ih]
          simp [List.filter_cons, h]
        · rw [if_neg hd]
          simp only [List.flatten_cons, List.nil_append]
          rw [ih]
          simp [List.filter_cons, h]
    · rcases hs : splitTerm rest with _ | ⟨s, ss⟩
      · exact absurd hs (splitTerm_ne_nil rest)
      · have h2 := ih
        rw [hs] at h2
        unfold splitTerm
        rw [if_neg (by simp [h]), hs]
        simp only [List.flatten_cons, List.cons_append, List.filter_cons, h,
          Bool.not_false, Bool.not_true]
        simpa using h2

/-- The accumulation loop of the chunker preserves retained content: what
its chunks retain is what the buffer and the remaining sentences retain. -/
theorem chunkLoop_content (sents : List (List Char)) :
    ∀ cur : List Char,
      ((chunkLoop sents cur).flatten).filter keepContent =
        cur.filter keepContent ++ (sents.flatten).filter keepContent := by
  induction sents with
  | nil =>
    intro cur
    by_cases h : cur.isEmpty
    · have : cur = [] := by simpa [List.isEmpty_iff] using h
      simp [chunkLoop, h, this]
    · simp [chunkLoop, h, filter_keep_pyStrip]
  | cons s rest ih =>
    intro cur
    by_cases h1 : (pyStrip s).isEmpty
    · have hs : s.filter keepContent = [] :=
        filter_keep_of_pyStrip_empty (by simpa [List.isEmpty_iff] using h1)
      simp [chunkLoop, h1, ih, List.filter_append, hs]
    · by_cases h2 : cur.length + (pyStrip s).length < chunkSize
      · simp [chunkLoop, h1, h2, ih, List.filter_append, filter_keep_pyStrip,
          show ['.', ' '].filter keepContent = [] from by decide]
      · by_cases h3 : cur.isEmpty
        · have hc : cur = [] := by simpa [List.isEmpty_iff] using h3
          simp [chunkLoop, h1, h2, h3, hc, ih, List.filter_append, filter_keep_pyStrip,
            show ['.', ' '].filter keepContent = [] from by decide]
        · simp [chunkLoop, h1, h2, h3, ih, List.filter_append, filter_keep_pyStrip,
            show ['.', ' '].filter keepContent = [] from by decide]

/-- C6 (confirmed): no silent text loss in chunking.  For every document
text, the concatenation of the chunk texts retains exactly the retained
content of the original: every character that is neither whitespace nor
one of the sentence separators `.!?` (which the splitter consumes and the
chunker re-joins with `". "`) survives, in order. -/
theorem chunking_preserves_nonseparator_content (text : List Char) :
    ((chunk_text text).flatten).filter keepContent = text.filter keepContent := by
  rw [chunk_text, chunkLoop_content, splitTerm_join]
  have : ∀ c : Char, (keepContent c && !(isTerm c)) = keepContent c := by
    intro c
    by_cases h : isTerm c <;> simp [keepContent, h]
  simp only [List.filter_filter, this, List.filter_nil, List.nil_append]

/-! ### C10: the persisted source-title list round-trips through JSON -/

/-- Decoding a hex digit inverts encoding it. -/
theorem hexVal_hexDigit : ∀ n, n < 16 → hexVal (hexDigit n) = some n := by decide

/-- Parsing the four emitted hex digits recovers the encoded value. -/
theorem hex4_hexDigits4 (n : Nat) (h : n < 65536) :
    hex4 (hexDigit (n / 4096 % 16)) (hexDigit (n / 256 % 16))
      (hexDigit (n / 16 % 16)) (hexDigit (n % 16)) = some n := by
  have h1 := hexVal_hexDigit (n / 4096 % 16) (Nat.mod_lt _ (by norm_num))
  have h2 := hexVal_hexDigit (n / 256 % 16) (Nat.mod_lt _ (by norm_num))
  have h3 := hexVal_hexDigit (n / 16 % 16) (Nat.mod_lt _ (by norm_num))
  have h4 := hexVal_hexDigit (n % 16) (Nat.mod_lt _ (by norm_num))
  simp only [hex4, h1, h2, h3, h4, Option.some.injEq]
  omega

/-- A valid scalar value below 0x10000 is not a surrogate. -/
theorem not_surrogate (c : Char) : ¬(55296 ≤ c.toNat ∧ c.toNat ≤ 56319) ∧
    ¬(56320 ≤ c.toNat ∧ c.toNat ≤ 57343) := by
  have hv := c.valid
  rcases hv with h | ⟨h1, h2⟩
  · have : c.toNat < 55296 := by
      simpa [Char.toNat] using h
    omega
  · have l1 : 57343 < c.toNat := by simpa [Char.toNat] using h1
    omega

/-- Parsing a non-surrogate BMP escape. -/
theorem parseEsc_encodeU (n : Nat) (hn : n < 65536)
    (hs1 : ¬(55296 ≤ n ∧ n ≤ 56319)) (hs2 : ¬(56320 ≤ n ∧ n ≤ 57343))
    (rest : List Char) :
    parseEsc ('u' :: (hexDigits4 n ++ rest)) = some (Char.ofNat n, 5) := by
  simp only [hexDigits4, List.cons_append, List.nil_append, parseEsc, if_pos rfl]
  simp [hex4_hexDigits4 n hn, hs1, hs2]

/-- Every scalar value is below 0x110000. -/
theorem char_toNat_lt (c : Char) : c.toNat < 1114112 := by
  rcases c.valid with h | ⟨_, h2⟩
  · have : c.toNat < 55296 := by simpa [Char.toNat] using h
    omega
  · simpa [Char.toNat] using h2

/-- Parsing an emitted surrogate pair recombines the two halves. -/
theorem parseEsc_pair_general (hi lo : Nat) (h1 : 55296 ≤ hi) (h2 : hi ≤ 56319)
    (h3 : 56320 ≤ lo) (h4 : lo ≤ 57343) (rest : List Char) :
    parseEsc ('u' :: (hexDigits4 hi ++ ('\\' :: 'u' :: (hexDigits4 lo ++ rest)))) =
      some (Char.ofNat (65536 + (hi - 55296) * 1024 + (lo - 56320)), 11) := by
  have e1 := hex4_hexDigits4 hi (by omega)
  have e2 := hex4_hexDigits4 lo (by omega)
  simp [parseEsc, hexDigits4, e1, e2, h1, h2, h3, h4]

/-- Scanning an emitted non-surrogate escape yields its character. -/
theorem scan_encodeU (n : Nat) (hn : n < 65536)
    (hs1 : ¬(55296 ≤ n ∧ n ≤ 56319)) (hs2 : ¬(56320 ≤ n ∧ n ≤ 57343))
    (rest acc : List Char) (done : List (List Char)) :
    scanArray ('\\' :: 'u' :: (hexDigits4 n ++ rest)) (ScanMode.str acc) done =
      scanArray rest (ScanMode.str (Char.ofNat n :: acc)) done := by
  have hp := parseEsc_encodeU n hn hs1 hs2 rest
  simp only [hexDigits4, List.cons_append, List.nil_append] at hp ⊢
  simp +decide [scanArray, hp]

/-- Scanning an emitted surrogate pair yields the astral character. -/
theorem scan_encodePair (v : Nat) (h1 : 65536 ≤ v) (h2 : v < 1114112)
    (rest acc : List Char) (done : List (List Char)) :
    scanArray ('\\' :: 'u' :: (hexDigits4 (55296 + (v - 65536) / 1024) ++
        ('\\' :: 'u' :: (hexDigits4 (56320 + (v - 65536) % 1024) ++ rest))))
      (ScanMode.str acc) done =
      scanArray rest (ScanMode.str (Char.ofNat v :: acc)) done := by
  have hp := parseEsc_pair_general (55296 + (v - 65536) / 1024) (56320 + (v - 65536) % 1024)
    (by omega) (by omega) (by omega) (by omega) rest
  have hv : 65536 + ((55296 + (v - 65536) / 1024) - 55296) * 1024 +
      ((56320 + (v - 65536) % 1024) - 56320) = v := by omega
  rw [hv] at hp
  simp only [hexDigits4, List.cons_append, List.nil_append] at hp ⊢
  simp +decide [scanArray, hp]

/-- Scanning the encoder's output for one character appends exactly that
character to the string being read. -/
theorem scan_encodeChar (c : Char) (rest acc : List Char) (done : List (List Char)) :
    scanArray (encodeChar c ++ rest) (ScanMode.str acc) done =
      scanArray rest (ScanMode.str (c :: acc)) done := by
  by_cases h1 : c = '"'
  · subst h1
    simp +decide [encodeChar, scanArray, parseEsc, escChar]
  by_cases h2 : c = '\\'
  · subst h2
    simp +decide [encodeChar, scanArray, parseEsc, escChar]
  by_cases h3 : c = Char.ofNat 8
  · subst h3
    simp +decide [encodeChar, scanArray, parseEsc, escChar]
  by_cases h4 : c = Char.ofNat 12
  · subst h4
    simp +decide [encodeChar, scanArray, parseEsc, escChar]
  by_cases h5 : c = '\n'
  · subst h5
    simp +decide [encodeChar, scanArray, parseEsc, escChar]
  by_cases h6 : c = Char.ofNat 13
  · subst h6
    simp +decide [encodeChar, scanArray, parseEsc, escChar]
  by_cases h7 : c = '\t'
  · subst h7
    simp +decide [encodeChar, scanArray, parseEsc, escChar]
  by_cases h8 : c.toNat < 32
  · rw [show encodeChar c = encodeU c.toNat by
      simp only [encodeChar, if_neg h1, if_neg h2, if_neg h3, if_neg h4, if_neg h5,
        if_neg h6, if_neg h7, if_pos h8]]
    rw [show encodeU c.toNat ++ rest = '\\' :: 'u' :: (hexDigits4 c.toNat ++ rest) by
      simp [encodeU]]
    rw [scan_encodeU c.toNat (by omega) (not_surrogate c).1 (not_surrogate c).2,
      Char.ofNat_toNat]
  by_cases h9 : c.toNat < 127
  · rw [show encodeChar c = [c] by
      simp only [encodeChar, if_neg h1, if_neg h2, if_neg h3, if_neg h4, if_neg h5,
        if_neg h6, if_neg h7, if_neg h8, if_pos h9]]
    simp only [List.cons_append, List.nil_append]
    rw [show scanArray (c :: rest) (ScanMode.str acc) done =
        scanArray rest (ScanMode.str (c :: acc)) done by
      simp [scanArray, h1, h2]]
  by_cases h10 : c.toNat < 65536
  · rw [show encodeChar c = encodeU c.toNat by
      simp only [encodeChar, if_neg h1, if_neg h2, if_neg h3, if_neg h4, if_neg h5,
        if_neg h6, if_neg h7, if_neg h8, if_neg h9, if_pos h10]]
    rw [show encodeU c.toNat ++ rest = '\\' :: 'u' :: (hexDigits4 c.toNat ++ rest) by
      simp [encodeU]]
    rw [scan_encodeU c.toNat (by omega) (not_surrogate c).1 (not_surrogate c).2,
      Char.ofNat_toNat]
  · rw [show encodeChar c = encodeU (55296 + (c.toNat - 65536) / 1024) ++
        encodeU (56320 + (c.toNat - 65536) % 1024) by
      simp only [encodeChar, if_neg h1, if_neg h2, if_neg h3, if_neg h4, if_neg h5,
        if_neg h6, if_neg h7, if_neg h8, if_neg h9, if_neg h10]]
    rw [show encodeU (55296 + (c.toNat - 65536) / 1024) ++
        encodeU (56320 + (c.toNat - 65536) % 1024) ++ rest =
        '\\' :: 'u' :: (hexDigits4 (55296 + (c.toNat - 65536) / 1024) ++
          ('\\' :: 'u' :: (hexDigits4 (56320 + (c.toNat - 65536) % 1024) ++ rest))) by
      simp [encodeU]]
    rw [scan_encodePair c.toNat (by omega) (char_toNat_lt c), Char.ofNat_toNat]

/-- Scanning an encoded string body up to its closing quote recovers the
string. -/
theorem scan_encodeString (s : List Char) : ∀ (rest acc : List Char) (done : List (List Char)),
    scanArray (s.flatMap encodeChar ++ ('"' :: rest)) (ScanMode.str acc) done =
      scanArray rest ScanMode.after (done ++ [acc.reverse ++ s]) := by
  induction s with
  | nil =>
    intro rest acc done
    simp [scanArray]
  | cons c t ih =>
    intro rest acc done
    rw [List.flatMap_cons, List.append_assoc, scan_encodeChar, ih]
    simp

/-- Scanning one encoded string item recovers it. -/
theorem scan_item_quote (s : List Char) (tail : List Char) (done : List (List Char)) :
    scanArray (encodeString s ++ tail) ScanMode.item done =
      scanArray tail ScanMode.after (done ++ [s]) := by
  rw [encodeString]
  simp only [List.cons_append, List.append_assoc, List.nil_append]
  rw [show scanArray ('"' :: (s.flatMap encodeChar ++ ('"' :: tail))) ScanMode.item done =
      scanArray (s.flatMap encodeChar ++ ('"' :: tail)) (ScanMode.str []) done by
    simp +decide [scanArray]]
  rw [scan_encodeString]
  simp

/-- Scanning the encoded, comma-separated items up to the closing bracket
recovers the item list. -/
theorem scan_items (ss : List (List Char)) :
    ∀ (done : List (List Char)) (rest : List Char), ss ≠ [] →
      scanArray (joinSep [',', ' '] (ss.map encodeString) ++ (']' :: rest))
          ScanMode.item done =
        some (done ++ ss, rest) := by
  induction ss with
  | nil => intro done rest h; exact absurd rfl h
  | cons s t ih =>
    intro done rest _
    cases t with
    | nil =>
      simp only [List.map_cons, List.map_nil, joinSep]
      rw [scan_item_quote]
      simp +decide [scanArray]
    | cons s2 t2 =>
      simp only [List.map_cons, joinSep, List.append_assoc]
      rw [scan_item_quote]
      rw [show ([',', ' '] : List Char) ++
          (joinSep [',', ' '] (encodeString s2 :: t2.map encodeString) ++ (']' :: rest)) =
          ',' :: ' ' ::
            (joinSep [',', ' '] (encodeString s2 :: t2.map encodeString) ++ (']' :: rest))
          from rfl]
      rw [show scanArray (',' :: ' ' ::
            (joinSep [',', ' '] (encodeString s2 :: t2.map encodeString) ++ (']' :: rest)))
            ScanMode.after (done ++ [s]) =
          scanArray (joinSep [',', ' '] (encodeString s2 :: t2.map encodeString) ++
            (']' :: rest)) ScanMode.item (done ++ [s]) by
        simp +decide [scanArray]]
      rw [show encodeString s2 :: t2.map encodeString = (s2 :: t2).map encodeString from rfl]
      rw [ih (done ++ [s]) rest (by simp)]
      simp

/-- The JSON document `json.dumps` writes for a list of strings is read
back losslessly by `json.loads`. -/
theorem loads_dumps (l : List (List Char)) : loads (dumps l) = some l := by
  cases l with
  | nil =>
    simp +decide [dumps, joinSep, loads, parseArray, skipWS]
  | cons s t =>
    have hY : ∃ Y, joinSep [',', ' '] ((s :: t).map encodeString) = '"' :: Y := by
      cases t with
      | nil => exact ⟨_, rfl⟩
      | cons a b => exact ⟨_, rfl⟩
    obtain ⟨Y, hY⟩ := hY
    have hitems := scan_items (s :: t) [] [] (by simp)
    rw [loads, dumps, parseArray]
    rw [show (']' : Char) :: [] = [']'] from rfl] at hitems
    rw [hY] at hitems ⊢
    simp only [List.cons_append, List.nil_append] at hitems ⊢
    simp +decide [skipWS, List.dropWhile_cons, hitems]

/-- C10 (confirmed): conversation-source round-trip.  The row
`save_conversation` persists stores `json.dumps(sources)`; decoding that
row the way `get_chat_history` does yields exactly the original title
list, and reading a fresh history through `get_chat_history` returns the
record with the identical sources. -/
theorem saved_sources_roundtrip_through_history (sources : List (List Char)) (db : DB)
    (user_id : Int) (question answer : List Char) :
    ((save_conversation db user_id question answer
        sources).conversation_history.getLast?).map decodeHistRow =
      some (some ⟨question, answer, sources⟩) ∧
    get_chat_history
        (save_conversation ⟨db.stories, db.story_chunks, []⟩ user_id question answer sources)
        user_id =
      some [⟨question, answer, sources⟩] := by
  have hl := loads_dumps sources
  have hne : (dumps sources).isEmpty = false := by simp [dumps]
  constructor
  · simp [save_conversation, decodeHistRow, hne, hl]
  · simp [get_chat_history, save_conversation, decodeHistRow, hne, hl, List.mapM.loop,
      Option.bind]
